import Mathlib

/-!
Verification of the context-budgeting and long-term-memory engine of the
proyecto_tif_backend repository.

The Python sources embedded here are:
 * `app/services/context_service.py`   (ContextService)
 * `app/services/gemini_service.py`    (GeminiService)
 * `app/services/assistant_service.py` (AssistantService)
 * `app/repositories/key_context_repository.py`  (KeyContextRepository)
 * `app/repositories/conversation_repository.py` (ConversationRepository)

Python strings are modelled as `List Char` (`Str`), MongoDB/Beanie stores as
plain lists of records, `datetime` values as natural-number logical clocks,
and the database sort of a query as a deterministic insertion sort on the
query's sort keys.  Python float division in the one similarity comparison
`len(A & B) / max(len(A), len(B)) >= 0.9` is modelled by the exact rational
comparison `10 * |A ∩ B| ≥ 9 * max |A| |B|`; at word-set sizes the two are
equivalent.
-/

namespace Tif

/-- Python `str` modelled as a list of characters. -/
abbrev Str := List Char

/-- ASCII apostrophe, kept as a named character. -/
def apos : Char := Char.ofNat 39

/-- Python `str.lower()` (ASCII fragment, which is all the engine compares). -/
def lowerStr (s : Str) : Str := s.map Char.toLower

/-- Python `str.strip()`: drop leading and trailing whitespace. -/
def pyStrip (s : Str) : Str :=
  ((s.dropWhile Char.isWhitespace).reverse.dropWhile Char.isWhitespace).reverse

/-- Python `.replace('.', '').replace(',', '')`: delete every period and comma. -/
def removePunct (s : Str) : Str :=
  s.filter (fun c => !(c = '.' || c = ','))

/-- Helper for Python `str.split()`: accumulate the current word (reversed). -/
def splitWSAux : Str → Str → List Str
  | [], cur => if cur.isEmpty then [] else [cur.reverse]
  | c :: rest, cur =>
      if c.isWhitespace then
        if cur.isEmpty then splitWSAux rest [] else cur.reverse :: splitWSAux rest []
      else splitWSAux rest (c :: cur)

/-- Python `str.split()` with no argument: split on whitespace runs, no empty words. -/
def splitWS (s : Str) : List Str := splitWSAux s []

/-- Python `set(words)` modelled as the deduplicated word list. -/
def wordSet (s : Str) : List Str := (splitWS s).dedup

/-- Size of the Python set intersection `existing_words & new_words`. -/
def interCount (a b : List Str) : Nat := (a.filter (fun w => w ∈ b)).length

/-- `relevant_info.strip().lower()` as computed in `_find_similar_context`. -/
def normLower (s : Str) : Str := lowerStr (pyStrip s)

/-- The word set `_find_similar_context` compares: normalize, strip `.`/`,`, split. -/
def wordsOf (s : Str) : List Str := wordSet (removePunct (normLower s))

/-- One document of the `key_contexts` collection (entity `KeyContext`). -/
structure KeyContext where
  id : Nat
  user_id : String
  relevant_info : Str
  context_priority : Int
  created_at : Nat
  updated_at : Nat
deriving DecidableEq, Repr

/-- Placeholder entry used only as the default of `List.getD`. -/
def defaultKC : KeyContext := ⟨0, "", [], 0, 0, 0⟩

/-- The Mongo sort key `("-context_priority", "-updated_at")`: `a` comes no
later than `b` when its priority is higher, or equal with a no-older
timestamp. -/
def keyLe (a b : KeyContext) : Prop :=
  b.context_priority < a.context_priority ∨
    (a.context_priority = b.context_priority ∧ b.updated_at ≤ a.updated_at)

instance : DecidableRel keyLe := fun a b => by unfold keyLe; infer_instance

instance : IsTotal KeyContext keyLe := by
  constructor
  intro a b
  unfold keyLe
  rcases lt_trichotomy a.context_priority b.context_priority with h | h | h
  · exact Or.inr (Or.inl h)
  · rcases Nat.le_total b.updated_at a.updated_at with h2 | h2
    · exact Or.inl (Or.inr ⟨h, h2⟩)
    · exact Or.inr (Or.inr ⟨h.symm, h2⟩)
  · exact Or.inl (Or.inl h)

instance : IsTrans KeyContext keyLe := by
  constructor
  intro a b c hab hbc
  unfold keyLe at *
  rcases hab with h1 | ⟨h1, h1u⟩ <;> rcases hbc with h2 | ⟨h2, h2u⟩
  · exact Or.inl (h2.trans h1)
  · exact Or.inl (h2 ▸ h1)
  · exact Or.inl (h1 ▸ h2)
  · exact Or.inr ⟨h1.trans h2, h2u.trans h1u⟩

/-- The deterministic model of Mongo's
`sort("-context_priority", "-updated_at")`. -/
def sortKC (l : List KeyContext) : List KeyContext := List.insertionSort keyLe l

/-- The user's documents, in store order (a Beanie `find` by user id). -/
def userContexts (store : List KeyContext) (uid : String) : List KeyContext :=
  store.filter (fun e => decide (e.user_id = uid))

/-- `KeyContext.find(user_id == uid, context_priority > 0)`, the pool
`_find_similar_context` scans. -/
def activeContexts (store : List KeyContext) (uid : String) : List KeyContext :=
  store.filter (fun e => decide (e.user_id = uid) && decide (0 < e.context_priority))

/-- Loop body of `_find_similar_context`.  Returning `none` on
`max = 0` models the `ZeroDivisionError` swallowed by the function's
`except` clause, which aborts the whole scan with `None`. -/
def findSimilarLoop (ni : Str) : List KeyContext → Option KeyContext
  | [] => none
  | c :: rest =>
      if normLower c.relevant_info = ni then some c
      else if max (wordsOf c.relevant_info).length (wordSet (removePunct ni)).length = 0 then
        none
      else if 9 * max (wordsOf c.relevant_info).length (wordSet (removePunct ni)).length
          ≤ 10 * interCount (wordsOf c.relevant_info) (wordSet (removePunct ni)) then some c
      else findSimilarLoop ni rest

/-- `KeyContextRepository._find_similar_context`. -/
def findSimilarContext (store : List KeyContext) (uid : String) (relevant_info : Str) :
    Option KeyContext :=
  findSimilarLoop (normLower relevant_info) (activeContexts store uid)

/-- `KeyContextRepository.save_user_key_context`.  `now` is the logical clock
behind `utc_now()`, `newId` the id Mongo would assign to a created document. -/
def save_user_key_context (store : List KeyContext) (uid : String) (relevant_info : Str)
    (context_priority : Int) (now : Nat) (newId : Nat) : List KeyContext :=
  match findSimilarContext store uid relevant_info with
  | some existing =>
      if existing.context_priority < context_priority then
        store.map (fun e =>
          if e.id = existing.id then
            { e with context_priority := context_priority, updated_at := now }
          else e)
      else
        store.map (fun e =>
          if e.id = existing.id then { e with updated_at := now } else e)
  | none =>
      store ++ [⟨newId, uid, relevant_info, context_priority, now, now⟩]

/-- `KeyContextRepository.update_key_context_priority`: look the document up by
id, check ownership, set priority and timestamp.  Returns the Python boolean
together with the new store. -/
def update_key_context_priority (store : List KeyContext) (uid : String) (cid : Nat)
    (new_priority : Int) (now : Nat) : Bool × List KeyContext :=
  match store.find? (fun e => decide (e.id = cid)) with
  | none => (false, store)
  | some ctx =>
      if ctx.user_id = uid then
        (true, store.map (fun e =>
          if e.id = cid then
            { e with context_priority := new_priority, updated_at := now }
          else e))
      else (false, store)

/-- `KeyContextRepository.get_user_key_contexts` (sorted query, `limit`). -/
def get_user_key_contexts (store : List KeyContext) (uid : String) (limit : Nat) :
    List KeyContext :=
  (sortKC (userContexts store uid)).take limit

/-- One dict produced by `get_optimized_key_contexts` (also the shape consumed
by `ContextService._build_key_context_section`). -/
structure CtxItem where
  relevant_info : Str
  timestamp : Nat
  context_priority : Int
  entry_number : Nat
  char_count : Nat
deriving DecidableEq, Repr

/-- The dict `get_optimized_key_contexts` appends for the entry at 0-based
position `idx` of its query result. -/
def toCtxItem (idx : Nat) (e : KeyContext) : CtxItem :=
  ⟨e.relevant_info, e.updated_at, e.context_priority, idx + 1,
    ("- ".toList ++ e.relevant_info).length⟩

/-- Accumulation loop of `get_optimized_key_contexts`: include entries while
the running character total stays within `max_chars`, `break` otherwise. -/
def optKCLoop (maxChars : Nat) : Nat → Nat → List KeyContext → List CtxItem
  | _, _, [] => []
  | total, idx, e :: rest =>
      if maxChars < total + ("- ".toList ++ e.relevant_info).length then []
      else toCtxItem idx e ::
        optKCLoop maxChars (total + ("- ".toList ++ e.relevant_info).length) (idx + 1) rest

/-- The sorted query result `get_optimized_key_contexts` iterates:
`find(user_id == uid, context_priority >= min_priority)` under the priority /
recency sort. -/
def optQuery (store : List KeyContext) (uid : String) (minPriority : Int) :
    List KeyContext :=
  sortKC (store.filter (fun e => decide (e.user_id = uid) && decide (minPriority ≤ e.context_priority)))

/-- `KeyContextRepository.get_optimized_key_contexts`. -/
def get_optimized_key_contexts (store : List KeyContext) (uid : String)
    (maxChars : Nat) (minPriority : Int) : List CtxItem :=
  optKCLoop maxChars 0 0 (optQuery store uid minPriority)

/-- Number of entries the `get_optimized_key_contexts` loop accepts. -/
def snapCount (maxChars : Nat) : Nat → List KeyContext → Nat
  | _, [] => 0
  | total, e :: rest =>
      if maxChars < total + ("- ".toList ++ e.relevant_info).length then 0
      else 1 + snapCount maxChars (total + ("- ".toList ++ e.relevant_info).length) rest

/-- The key-context entries underlying the snapshot actually sent to the model
(the defaults `max_chars = 1500`, `min_priority = 1` used by
`AssistantService.handle_user_request`). -/
def snapshotEntries (store : List KeyContext) (uid : String) : List KeyContext :=
  (optQuery store uid 1).take (snapCount 1500 0 (optQuery store uid 1))

/-- One `context_updates` application inside
`AssistantService.handle_user_request`: `entry_to_context_map` is built by
enumerating `get_user_key_contexts` (default `limit = 30`), the update is
skipped when `entry_number` is not a key of that map. -/
def applyContextUpdate (store : List KeyContext) (uid : String) (entry_number : Nat)
    (new_priority : Int) (now : Nat) : List KeyContext :=
  if 1 ≤ entry_number ∧ entry_number ≤ (get_user_key_contexts store uid 30).length then
    (update_key_context_priority store uid
      ((get_user_key_contexts store uid 30).getD (entry_number - 1) defaultKC).id
      new_priority now).2
  else store

/-- The parsed Gemini reply as `AssistantService.handle_user_request` consumes
it.  `app_params` keeps the list of `question` booleans of the Python
`app_params` list of one-key dicts; `interaction_params` and the
`context_updates` list mirror the response schema. -/
structure InteractionParams where
  relevant_for_context : Bool
  context_priority : Int
  relevant_info : Str
deriving DecidableEq, Repr

structure ContextUpdate where
  entry_number : Nat
  new_priority : Int
deriving DecidableEq, Repr

structure GeminiReply where
  server_reply : Str
  app_params : List Bool
  context_updates : List ContextUpdate
  interaction_params : Option InteractionParams
deriving DecidableEq, Repr

/-- The `continue_listening` flag the app derives from a reply: the `question`
boolean of the first `app_params` object (absent means not listening). -/
def continueListening (r : GeminiReply) : Bool := r.app_params.headD false

/-- Generic apology text of both fallback replies in
`GeminiService._generate_response`. -/
def apologyText : Str :=
  "I apologize, but I".toList ++ [apos] ++
    "m having trouble processing your request right now. Please try again.".toList

/-- The fallback reply returned on an empty model response
(`_generate_response`, `if not response_text.strip()`). -/
def fallbackReply : GeminiReply :=
  { server_reply := apologyText
    app_params := [false]
    context_updates := []
    interaction_params := some
      ⟨false, 1, "System error occurred during response processing".toList⟩ }

/-- The fallback reply returned when `json.loads` raises
(`except json.JSONDecodeError`). -/
def jsonErrorFallbackReply : GeminiReply :=
  { server_reply := apologyText
    app_params := [false]
    context_updates := []
    interaction_params := some
      ⟨false, 1, "JSON parsing error occurred during response processing".toList⟩ }

/-- The empty-output branch of `_generate_response`: a whitespace-only raw
response yields `fallbackReply`, anything else proceeds to parsing. -/
def emptyResponseFallback (responseText : Str) : Option GeminiReply :=
  if pyStrip responseText = [] then some fallbackReply else none

/-- The synthetic structured reply `_generate_response` builds around raw
Google-search text when no JSON object can be extracted from it. -/
def makeSyntheticSearchReply (responseText : Str) : GeminiReply :=
  { server_reply := pyStrip responseText
    app_params := [false]
    context_updates := []
    interaction_params := some
      ⟨true, 10,
        "The user requested current information and received search results.".toList⟩ }

/-- Python `text.endswith(char)` for a single character. -/
def pyEndsWith (s : Str) (c : Char) : Bool := s.getLast? = some c

/-- Memory reconciliation of one reply inside
`AssistantService.handle_user_request`: apply every `context_updates` item
through the `entry_to_context_map`, then save `relevant_info` when
`relevant_for_context` and `relevant_info` are truthy. -/
def reconcile (store : List KeyContext) (uid : String) (r : GeminiReply)
    (now : Nat) (newId : Nat) : List KeyContext :=
  let s1 := r.context_updates.foldl
    (fun s u => applyContextUpdate s uid u.entry_number u.new_priority now) store
  match r.interaction_params with
  | some ip =>
      if ip.relevant_for_context = true ∧ ip.relevant_info ≠ [] then
        save_user_key_context s1 uid ip.relevant_info ip.context_priority now newId
      else s1
  | none => s1

/-- One document of the `conversations` collection (entity `Conversation`). -/
structure Conversation where
  id : Nat
  user_id : String
  user_input : Str
  server_reply : Str
  timestamp : Nat
deriving DecidableEq, Repr

/-- The Mongo sort key `("-timestamp")`: newest first. -/
def convLe (a b : Conversation) : Prop := b.timestamp ≤ a.timestamp

instance : DecidableRel convLe := fun a b => by unfold convLe; infer_instance

instance : IsTotal Conversation convLe :=
  ⟨fun a b => (Nat.le_total b.timestamp a.timestamp).imp id id⟩

instance : IsTrans Conversation convLe :=
  ⟨fun _ _ _ hab hbc => Nat.le_trans hbc hab⟩

/-- Deterministic model of `sort("-timestamp")`. -/
def sortConvs (l : List Conversation) : List Conversation := List.insertionSort convLe l

/-- The dict shape `get_optimized_conversations` returns (the fields the
context builders read; `interaction_params` and `char_count` are carried along
by the source but never consumed downstream). -/
structure ConvItem where
  user_input : Str
  server_reply : Str
  timestamp : Nat
deriving DecidableEq, Repr

def toConvItem (c : Conversation) : ConvItem := ⟨c.user_input, c.server_reply, c.timestamp⟩

/-- The text whose length `get_optimized_conversations` budgets per turn. -/
def convText (c : Conversation) : Str :=
  "User: ".toList ++ c.user_input ++ "\nAssistant: ".toList ++ c.server_reply

/-- Accumulation loop of `get_optimized_conversations`: walk the
newest-first query result, `break` when the next turn would exceed
`max_chars`. -/
def optConvLoop (maxChars : Nat) : Nat → List Conversation → List ConvItem
  | _, [] => []
  | total, c :: rest =>
      if maxChars < total + (convText c).length then []
      else toConvItem c :: optConvLoop maxChars (total + (convText c).length) rest

/-- The newest-first query result `get_optimized_conversations` iterates. -/
def convQuery (store : List Conversation) (uid : String) : List Conversation :=
  sortConvs (store.filter (fun c => decide (c.user_id = uid)))

/-- `ConversationRepository.get_optimized_conversations` (default
`max_chars = 2000`). -/
def get_optimized_conversations (store : List Conversation) (uid : String)
    (maxChars : Nat) : List ConvItem :=
  optConvLoop maxChars 0 (convQuery store uid)

/-- `clean_reply`: strip a leading case-insensitive `assistant:` tag
(both context builders do this identically). -/
def cleanReply (server_reply : Str) : Str :=
  if "assistant:".toList.isPrefixOf (lowerStr server_reply) then
    pyStrip (server_reply.drop ("assistant:".toList).length)
  else server_reply

/-- The `User:`/`Assistant:` pair text both
`ContextService._build_conversation_section` (`conv_entry`) and
`GeminiService._build_system_instruction` emit for one turn. -/
def convEntry (c : ConvItem) : Str :=
  "User: ".toList ++ c.user_input ++ " (at ".toList ++ (toString c.timestamp).toList ++
    ")\n".toList ++ "Assistant: ".toList ++ cleanReply c.server_reply ++ "\n\n".toList

/-- Header of the history block (`RECENT CONVERSATION HISTORY`), with the
`"\n\n"` separator `_build_system_instruction` prepends. -/
def histHeaderG : Str := "\n\nRECENT CONVERSATION HISTORY:\n".toList

/-- The history portion of `GeminiService._build_system_instruction`:
starting from the instruction text built so far, append the header and then
one pair per conversation, in the order of the given list. -/
def buildSystemInstructionHistory (base : Str) (cc : List ConvItem) : Str :=
  if cc = [] then base
  else cc.foldl (fun acc c => acc ++ convEntry c) (base ++ histHeaderG)

/-- The formatted line `_build_key_context_section` builds for the dict at
1-based position `i` of its priority-sorted input. -/
def ctxLine (i : Nat) (e : CtxItem) : Str :=
  (toString i).toList ++ ". [".toList ++ (toString e.timestamp).toList ++
    " | priority: ".toList ++ (toString e.context_priority).toList ++ "] ".toList ++
    e.relevant_info ++ "\n".toList

/-- The numbered lines of a dict list, numbering from `i`
(Python `enumerate(sorted_key_context, 1)`). -/
def numberedLines : Nat → List CtxItem → List Str
  | _, [] => []
  | i, e :: rest => ctxLine i e :: numberedLines (i + 1) rest

/-- Python `sorted(key_context_data, key=priority, reverse=True)`: a stable
sort on `context_priority` alone. -/
def ctxItemLe (a b : CtxItem) : Prop := b.context_priority ≤ a.context_priority

instance : DecidableRel ctxItemLe := fun a b => by unfold ctxItemLe; infer_instance

instance : IsTotal CtxItem ctxItemLe :=
  ⟨fun a b => (Int.le_total b.context_priority a.context_priority).imp id id⟩

instance : IsTrans CtxItem ctxItemLe :=
  ⟨fun _ _ _ hab hbc => Int.le_trans hbc hab⟩

def sortCtxItems (l : List CtxItem) : List CtxItem := List.insertionSort ctxItemLe l

/-- Accumulation loop of `_build_key_context_section` over the numbered lines:
append a line unless it would push the content past `max_key_context_chars`,
then `break`. -/
def keyLoop (maxKey : Nat) : Str → List Str → Str
  | acc, [] => acc
  | acc, line :: rest =>
      if maxKey < acc.length + line.length then acc
      else keyLoop maxKey (acc ++ line) rest

/-- Section header of the key-context block. -/
def keyHeader : Str := "KEY CONTEXT FROM PREVIOUS IMPORTANT INTERACTIONS:\n".toList

/-- The `key_context_content` accumulated by `_build_key_context_section`. -/
def keyContextContent (maxKey : Nat) (kd : List CtxItem) : Str :=
  keyLoop maxKey [] (numberedLines 1 (sortCtxItems kd))

/-- `ContextService._build_key_context_section`. -/
def buildKeyContextSection (maxKey : Nat) (kd : List CtxItem) : Option Str :=
  if kd = [] then none
  else
    let content := keyContextContent maxKey kd
    if content = [] then none else some (keyHeader ++ content)

/-- Section header of the conversation block in `ContextService`. -/
def convHeader : Str := "RECENT CONVERSATION HISTORY:\n".toList

/-- Accumulation loop of `_build_conversation_section`: walk the input in
reverse, prepend each accepted pair, `break` past `max_conversation_chars`. -/
def convSectionLoop (maxConv : Nat) : Str → List ConvItem → Str
  | content, [] => content
  | content, c :: rest =>
      if maxConv < content.length + (convEntry c).length then content
      else convSectionLoop maxConv (convEntry c ++ content) rest

/-- The `conversation_content` accumulated by `_build_conversation_section`. -/
def conversationContent (maxConv : Nat) (cc : List ConvItem) : Str :=
  convSectionLoop maxConv [] cc.reverse

/-- `ContextService._build_conversation_section`. -/
def buildConversationSection (maxConv : Nat) (cc : List ConvItem) : Option Str :=
  if cc = [] then none
  else
    let content := conversationContent maxConv cc
    if content = [] then none else some (convHeader ++ content)

/-- Python slice `s[:n]` for an `int` bound `n` (negative bounds count from
the end). -/
def pySliceTo (s : Str) (n : Int) : Str :=
  if 0 ≤ n then s.take n.toNat
  else s.take (s.length - min s.length n.natAbs)

/-- The truncation marker appended by `_ensure_total_length_limit`. -/
def truncationMarker : Str := "\n\n[Context truncated to fit limits]".toList

/-- `ContextService._ensure_total_length_limit`. -/
def ensureTotalLengthLimit (maxTotal : Nat) (instruction fixed : Str) : Str :=
  if instruction.length ≤ maxTotal then instruction
  else if (maxTotal : Int) - fixed.length - 50 ≤ 0 then fixed
  else pySliceTo instruction ((maxTotal : Int) - 50) ++ truncationMarker

/-- `ContextService.build_optimized_context`. -/
def build_optimized_context (maxKey maxConv maxTotal : Nat) (kd : List CtxItem)
    (cc : List ConvItem) (fixed : Str) : Str :=
  let i1 := match buildKeyContextSection maxKey kd with
    | some s => fixed ++ "\n\n".toList ++ s
    | none => fixed
  let i2 := match buildConversationSection maxConv cc with
    | some s => i1 ++ "\n\n".toList ++ s
    | none => i1
  ensureTotalLengthLimit maxTotal i2 fixed

/-- Enumeration of a query-result prefix into the dicts
`get_optimized_key_contexts` returns, numbering 0-based positions
(`entry_number = idx + 1`). -/
def enumItems : Nat → List KeyContext → List CtxItem
  | _, [] => []
  | i, e :: rest => toCtxItem i e :: enumItems (i + 1) rest

/-! ### Concrete scenario data used by counterexamples and witnesses -/

/-- The pre-existing active entry of the C2 scenario. -/
def anaExisting : KeyContext := ⟨1, "u", "users name is ana.".toList, 1, 0, 0⟩

/-- The new fact text of the C2 scenario (`"The user's name is Ana"`). -/
def anaNew : Str := "The user".toList ++ [apos] ++ "s name is Ana".toList

/-- Two conversations of one user, timestamps 1 (older) and 2 (newer). -/
def convA : Conversation := ⟨1, "u", "hi".toList, "hello".toList, 1⟩
def convB : Conversation := ⟨2, "u", "bye".toList, "later".toList, 2⟩

/-- Thirty-one tiny active entries: all fit the 1500-character snapshot
budget, but `get_user_key_contexts` truncates its mapping at 30. -/
def store31 : List KeyContext :=
  (List.range 31).map (fun i => ⟨i + 1, "u", ['x'], 5, 0, 100 - i⟩)

/-- An active entry followed by a zero-priority entry: the snapshot excludes
the latter, the 30-entry id mapping does not. -/
def zp1 : KeyContext := ⟨1, "u", "likes tea".toList, 5, 0, 10⟩
def zp2 : KeyContext := ⟨2, "u", "old fact".toList, 0, 0, 9⟩

/-- A two-user store for the priority-update witnesses. -/
def aliceEntry : KeyContext := ⟨1, "alice", "likes tea".toList, 3, 0, 2⟩
def bobEntry : KeyContext := ⟨2, "bob", "likes coffee".toList, 4, 0, 1⟩
def twoUserStore : List KeyContext := [aliceEntry, bobEntry]

/-! ### General lemmas about `_ensure_total_length_limit` -/

lemma truncationMarker_length : truncationMarker.length = 35 := by decide

/-- Behaviour of `_ensure_total_length_limit` on an instruction that extends
the fixed context, when the fixed context itself fits the cap. -/
lemma ensureTotalLengthLimit_spec (maxTotal : Nat) (r fixed : Str)
    (hf : fixed.length ≤ maxTotal) :
    (ensureTotalLengthLimit maxTotal (fixed ++ r) fixed).length ≤ maxTotal ∧
      fixed <+: ensureTotalLengthLimit maxTotal (fixed ++ r) fixed := by
  unfold ensureTotalLengthLimit
  by_cases h1 : (fixed ++ r).length ≤ maxTotal
  · rw [if_pos h1]
    exact ⟨h1, List.prefix_append fixed r⟩
  · rw [if_neg h1]
    by_cases h2 : (maxTotal : Int) - fixed.length - 50 ≤ 0
    · rw [if_pos h2]
      exact ⟨hf, List.prefix_refl fixed⟩
    · rw [if_neg h2]
      have hlen : (fixed ++ r).length = fixed.length + r.length := List.length_append _ _
      have h50 : fixed.length + 50 < maxTotal := by omega
      have hnn : (0 : Int) ≤ (maxTotal : Int) - 50 := by omega
      have htn : ((maxTotal : Int) - 50).toNat = maxTotal - 50 := by omega
      rw [pySliceTo, if_pos hnn, htn]
      constructor
      · rw [List.length_append, List.length_take, truncationMarker_length]
        have : ¬ (fixed ++ r).length ≤ maxTotal := h1
        omega
      · have hstep : (fixed ++ r).take fixed.length <+: (fixed ++ r).take (maxTotal - 50) :=
          List.take_prefix_take_left _ (by omega)
        rw [List.take_left fixed r] at hstep
        exact hstep.trans (List.prefix_append _ _)

/-- C1, counterexample: with `maxTotalChars = 10` and a 20-character
fixed-instruction string (and empty memory/history pools),
`build_optimized_context` returns the whole fixed string, 20 characters long;
the claimed unconditional bound `length ≤ maxTotalChars` is violated. -/
theorem C1_counterexample :
    ¬ (build_optimized_context 10 10 10 [] [] ("abcdefghijklmnopqrst".toList)).length ≤ 10 := by
  decide

/-- C1, amended: whenever the fixed instructions themselves fit the cap
(`len(fixed) ≤ maxTotalChars`), the assembled context is at most
`maxTotalChars` characters and the fixed instructions survive as an uncut
prefix.  When the fixed instructions alone exceed the cap the code returns
them verbatim, so only the never-partially-cut half survives there. -/
theorem C1_amended (maxKey maxConv maxTotal : Nat) (kd : List CtxItem)
    (cc : List ConvItem) (fixed : Str) (hf : fixed.length ≤ maxTotal) :
    (build_optimized_context maxKey maxConv maxTotal kd cc fixed).length ≤ maxTotal ∧
      fixed <+: build_optimized_context maxKey maxConv maxTotal kd cc fixed := by
  unfold build_optimized_context
  rcases buildKeyContextSection maxKey kd with _ | s1 <;>
    rcases buildConversationSection maxConv cc with _ | s2
  · have h := ensureTotalLengthLimit_spec maxTotal [] fixed hf
    rwa [List.append_nil] at h
  · have h := ensureTotalLengthLimit_spec maxTotal ("\n\n".toList ++ s2) fixed hf
    simpa [List.append_assoc] using h
  · have h := ensureTotalLengthLimit_spec maxTotal ("\n\n".toList ++ s1) fixed hf
    simpa [List.append_assoc] using h
  · have h := ensureTotalLengthLimit_spec maxTotal
      ("\n\n".toList ++ s1 ++ ("\n\n".toList ++ s2)) fixed hf
    simpa [List.append_assoc] using h

/-- C1, witness for the amended theorem at a concrete input. -/
theorem C1_witness :
    (build_optimized_context 50 50 100 [] [] ("abc".toList)).length ≤ 100 ∧
      "abc".toList <+: build_optimized_context 50 50 100 [] [] ("abc".toList) :=
  C1_amended 50 50 100 [] [] ("abc".toList) (by decide)

/-! ### C4: the synthetic reply built around raw search text -/

/-- C4, counterexample: the raw search text `"Is it raining in Mendoza?"` ends
with `?`, yet the synthetic reply wrapped around it has
`continue_listening = false` — the flag is the hard-coded
`app_params=[{"question": False}]`, not derived from the text. -/
theorem C4_counterexample :
    ¬ ((continueListening (makeSyntheticSearchReply ("Is it raining in Mendoza?".toList)) = true)
        ↔ pyEndsWith ("Is it raining in Mendoza?".toList) '?' = true) := by
  decide

/-- C4, amended: for every raw text, the synthetic reply built by the
augmented-mode branch of `_generate_response` has `continue_listening = false`,
regardless of whether the text ends with a question mark. -/
theorem C4_amended (responseText : Str) :
    continueListening (makeSyntheticSearchReply responseText) = false := rfl

/-! ### C2: the "user's name is Ana" dedup scenario -/

/-- C2, counterexample: the similarity rule does **not** classify the two
texts as duplicates — their word sets are `{the, user's, name, is, ana}` and
`{users, name, is, ana}`, overlapping in 3 of max 5 words (0.6 < 0.9) — so
`save_user_key_context` inserts a second entry instead of merging. -/
theorem C2_counterexample :
    findSimilarContext [anaExisting] "u" anaNew = none ∧
      (save_user_key_context [anaExisting] "u" anaNew 2 5 2).length = 2 := by
  decide

/-- C2, amended: on this exact scenario the reconciler computes word overlap
3 / max(4,5) < 0.9, classifies the texts as distinct, inserts a second entry
carrying the new priority, and leaves the existing entry untouched (no
priority merge happens). -/
theorem C2_amended :
    interCount (wordsOf anaExisting.relevant_info) (wordsOf anaNew) = 3 ∧
      (wordsOf anaExisting.relevant_info).length = 4 ∧
      (wordsOf anaNew).length = 5 ∧
      save_user_key_context [anaExisting] "u" anaNew 2 5 2
        = [anaExisting, ⟨2, "u", anaNew, 2, 5, 5⟩] := by
  decide

/-! ### C7: included memory lines form a contiguous prefix -/

/-- The `_build_key_context_section` loop never splits a line and never skips
one: its result is always the concatenation of a prefix of the given lines. -/
lemma keyLoop_take (maxKey : Nat) :
    ∀ (lines : List Str) (acc : Str), ∃ k, keyLoop maxKey acc lines = acc ++ (lines.take k).flatten
  | [], acc => ⟨0, by simp [keyLoop]⟩
  | line :: rest, acc => by
    unfold keyLoop
    by_cases h : maxKey < acc.length + line.length
    · exact ⟨0, by simp [h]⟩
    · obtain ⟨k, hk⟩ := keyLoop_take maxKey rest (acc ++ line)
      exact ⟨k + 1, by simp [h, hk, List.append_assoc]⟩

/-- Same shape for the `get_optimized_key_contexts` loop. -/
lemma optKCLoop_take (maxChars : Nat) :
    ∀ (l : List KeyContext) (total idx : Nat),
      ∃ k, optKCLoop maxChars total idx l = enumItems idx (l.take k)
  | [], total, idx => ⟨0, by simp [optKCLoop, enumItems]⟩
  | e :: rest, total, idx => by
    unfold optKCLoop
    by_cases h : maxChars < total + ("- ".toList ++ e.relevant_info).length
    · exact ⟨0, by rw [if_pos h]; simp [enumItems]⟩
    · obtain ⟨k, hk⟩ := optKCLoop_take maxChars rest
        (total + ("- ".toList ++ e.relevant_info).length) (idx + 1)
      exact ⟨k + 1, by rw [if_neg h, hk]; simp [enumItems]⟩

/-- C7, confirmed: in both builders the included memory lines are a
contiguous prefix of the priority-sorted entry list — the section content is
the concatenation of the first `k` whole numbered lines of the sorted dicts,
and the repository's budgeted query returns the dicts of the first `k`
entries of its sorted result, for some `k`; nothing is partially truncated
and nothing after the first exclusion is included. -/
theorem C7_prefix_invariant (maxKey : Nat) (kd : List CtxItem)
    (store : List KeyContext) (uid : String) (maxChars : Nat) (minPriority : Int) :
    (∃ k, keyContextContent maxKey kd = ((numberedLines 1 (sortCtxItems kd)).take k).flatten) ∧
      (∃ k, get_optimized_key_contexts store uid maxChars minPriority
        = enumItems 0 ((optQuery store uid minPriority).take k)) := by
  constructor
  · obtain ⟨k, hk⟩ := keyLoop_take maxKey (numberedLines 1 (sortCtxItems kd)) []
    exact ⟨k, by simpa using hk⟩
  · obtain ⟨k, hk⟩ := optKCLoop_take maxChars (optQuery store uid minPriority) 0 0
    exact ⟨k, hk⟩

/-! ### C5: history selection and emission order -/

/-- The `get_optimized_conversations` loop keeps a prefix of the newest-first
query result. -/
lemma optConvLoop_take (maxChars : Nat) :
    ∀ (l : List Conversation) (total : Nat),
      ∃ k, optConvLoop maxChars total l = (l.take k).map toConvItem
  | [], total => ⟨0, by simp [optConvLoop]⟩
  | c :: rest, total => by
    unfold optConvLoop
    by_cases h : maxChars < total + (convText c).length
    · exact ⟨0, by simp [h]⟩
    · obtain ⟨k, hk⟩ := optConvLoop_take maxChars rest (total + (convText c).length)
      exact ⟨k + 1, by simp [h, hk]⟩

/-- Appending one pair per list element is concatenation in list order. -/
lemma foldl_convEntry (l : List ConvItem) :
    ∀ b : Str, l.foldl (fun acc c => acc ++ convEntry c) b = b ++ (l.map convEntry).flatten := by
  induction l with
  | nil => intro b; simp
  | cons c rest ih => intro b; simp [ih, List.append_assoc]

/-- C5, counterexample: with two turns at timestamps 1 and 2, both within
budget, the assembled history block lists the newer pair first — the accepted
pairs are emitted newest-first, not in chronological (oldest-first) order. -/
theorem C5_counterexample :
    buildSystemInstructionHistory [] (get_optimized_conversations [convA, convB] "u" 2000)
        = histHeaderG ++ (convEntry (toConvItem convB) ++ (convEntry (toConvItem convA) ++ [])) ∧
      convEntry (toConvItem convB) ++ (convEntry (toConvItem convA) ++ [])
        ≠ convEntry (toConvItem convA) ++ (convEntry (toConvItem convB) ++ []) := by
  constructor
  · decide
  · decide

/-- C5, amended: the repository does select turn pairs newest-first,
accumulating until the next pair would exceed the budget (the result is a
prefix of the timestamp-descending query), but the final assembled text
re-emits the accepted pairs in that same newest-first order — reverse
chronological, not oldest-first. -/
theorem C5_amended (store : List Conversation) (uid : String) (maxChars : Nat) (base : Str) :
    List.Sorted convLe (convQuery store uid) ∧
      (∃ k, get_optimized_conversations store uid maxChars
        = ((convQuery store uid).take k).map toConvItem) ∧
      buildSystemInstructionHistory base (get_optimized_conversations store uid maxChars)
        = (if get_optimized_conversations store uid maxChars = [] then base
           else base ++ histHeaderG
             ++ ((get_optimized_conversations store uid maxChars).map convEntry).flatten) := by
  refine ⟨List.sorted_insertionSort convLe _, ?_, ?_⟩
  · exact optConvLoop_take maxChars (convQuery store uid) 0
  · unfold buildSystemInstructionHistory
    by_cases h : get_optimized_conversations store uid maxChars = []
    · rw [if_pos h, if_pos h]
    · rw [if_neg h, if_neg h, foldl_convEntry, List.append_assoc]

/-! ### C6: idempotent dedup of a twice-inserted fact -/

/-- Intersecting a word set with itself counts every word. -/
lemma interCount_self (a : List Str) : interCount a a = a.length := by
  unfold interCount
  rw [List.filter_eq_self.mpr]
  intro w hw
  simpa using hw

/-- What a completed similarity scan with a non-empty new word set says about
every scanned entry: no exact normalized match, and word overlap strictly
below the 0.9 threshold. -/
lemma findSimilarLoop_none (ni : Str) (hnw : (wordSet (removePunct ni)).length ≠ 0) :
    ∀ {l : List KeyContext}, findSimilarLoop ni l = none →
      ∀ c ∈ l, normLower c.relevant_info ≠ ni ∧
        10 * interCount (wordsOf c.relevant_info) (wordSet (removePunct ni))
          < 9 * max (wordsOf c.relevant_info).length (wordSet (removePunct ni)).length := by
  intro l
  induction l with
  | nil => intro _ c hc; cases hc
  | cons a rest ih =>
    intro h c hc
    rw [findSimilarLoop] at h
    by_cases h1 : normLower a.relevant_info = ni
    · rw [if_pos h1] at h
      exact absurd h (by simp)
    · rw [if_neg h1] at h
      by_cases h2 : max (wordsOf a.relevant_info).length (wordSet (removePunct ni)).length = 0
      · exact absurd h2 (by omega)
      · rw [if_neg h2] at h
        by_cases h3 : 9 * max (wordsOf a.relevant_info).length (wordSet (removePunct ni)).length
            ≤ 10 * interCount (wordsOf a.relevant_info) (wordSet (removePunct ni))
        · rw [if_pos h3] at h
          exact absurd h (by simp)
        · rw [if_neg h3] at h
          rcases List.mem_cons.mp hc with hc2 | hc2
          · subst hc2
            exact ⟨h1, by omega⟩
          · exact ih h c hc2

/-- A scan skips over a block of entries that neither match exactly nor reach
the similarity threshold (with a non-zero denominator). -/
lemma findSimilarLoop_append (ni : Str) {A : List KeyContext} (B : List KeyContext)
    (hA : ∀ c ∈ A, normLower c.relevant_info ≠ ni ∧
      max (wordsOf c.relevant_info).length (wordSet (removePunct ni)).length ≠ 0 ∧
      ¬ (9 * max (wordsOf c.relevant_info).length (wordSet (removePunct ni)).length
          ≤ 10 * interCount (wordsOf c.relevant_info) (wordSet (removePunct ni)))) :
    findSimilarLoop ni (A ++ B) = findSimilarLoop ni B := by
  induction A with
  | nil => rfl
  | cons a A ih =>
    obtain ⟨h1, h2, h3⟩ := hA a (by simp)
    rw [List.cons_append, findSimilarLoop, if_neg h1, if_neg h2, if_neg h3]
    exact ih (fun c hc => hA c (by simp [hc]))

/-- C6, counterexample: inserting the same fact text twice with priorities
`p1 = p2 = 0` creates two stored entries and zero active entries — the
zero-priority first copy is invisible to the duplicate scan, so no merge
happens and no active entry with priority `max(0,0)` exists. -/
theorem C6_counterexample :
    (save_user_key_context (save_user_key_context [] "u" ['x'] 0 0 1) "u" ['x'] 0 1 2).length = 2 ∧
      ((save_user_key_context (save_user_key_context [] "u" ['x'] 0 0 1) "u" ['x'] 0 1 2).filter
        (fun e => decide (0 < e.context_priority))).length = 0 := by
  decide

/-- C6, amended: when the first insert carries a positive priority, the two
texts agree after trimming, lowercasing and stripping `.`/`,`, the shared word
set is non-empty, the pool holds nothing similar to the text, and the new id
is fresh, then inserting the fact twice leaves exactly one new entry whose
priority is the maximum of the two attempts (and the rest of the pool
untouched). -/
theorem C6_amended (store : List KeyContext) (uid : String) (t1 t2 : Str) (p1 p2 : Int)
    (now1 newId1 now2 newId2 : Nat)
    (hnorm : removePunct (normLower t1) = removePunct (normLower t2))
    (hwords : wordsOf t1 ≠ [])
    (hp1 : 0 < p1)
    (hnone : findSimilarContext store uid t1 = none)
    (hfresh : ∀ e ∈ store, e.id ≠ newId1) :
    save_user_key_context (save_user_key_context store uid t1 p1 now1 newId1) uid t2 p2 now2 newId2
      = store ++ [⟨newId1, uid, t1, max p1 p2, now1, now2⟩] := by
  have hE1 : save_user_key_context store uid t1 p1 now1 newId1
      = store ++ [⟨newId1, uid, t1, p1, now1, now1⟩] := by
    unfold save_user_key_context
    rw [hnone]
  have hw12 : wordsOf t1 = wordsOf t2 := by unfold wordsOf; rw [hnorm]
  have hnw1 : (wordSet (removePunct (normLower t1))).length ≠ 0 := by
    intro h
    exact hwords (List.length_eq_zero.mp h)
  -- the active pool of the intermediate store
  have hact : activeContexts (store ++ [(⟨newId1, uid, t1, p1, now1, now1⟩ : KeyContext)]) uid
      = activeContexts store uid ++ [⟨newId1, uid, t1, p1, now1, now1⟩] := by
    unfold activeContexts
    rw [List.filter_append]
    congr 1
    simp [hp1]
  -- every previously active entry fails the similarity test against t2 as well
  have hskip : ∀ c ∈ activeContexts store uid,
      normLower c.relevant_info ≠ normLower t2 ∧
        max (wordsOf c.relevant_info).length (wordSet (removePunct (normLower t2))).length ≠ 0 ∧
        ¬ (9 * max (wordsOf c.relevant_info).length
              (wordSet (removePunct (normLower t2))).length
            ≤ 10 * interCount (wordsOf c.relevant_info)
              (wordSet (removePunct (normLower t2)))) := by
    intro c hc
    have hfacts := findSimilarLoop_none (normLower t1) hnw1 hnone c hc
    have hnw2 : wordSet (removePunct (normLower t2)) = wordsOf t1 := by
      unfold wordsOf
      rw [hnorm]
    have hlt : 10 * interCount (wordsOf c.relevant_info) (wordsOf t1)
        < 9 * max (wordsOf c.relevant_info).length (wordsOf t1).length := by
      have := hfacts.2
      simpa [wordsOf] using this
    refine ⟨?_, ?_, ?_⟩
    · intro hEq
      have hcw : wordsOf c.relevant_info = wordsOf t1 := by
        have h' : wordsOf c.relevant_info = wordSet (removePunct (normLower t2)) := by
          unfold wordsOf
          rw [hEq]
        rw [h', hnw2]
      rw [hcw, interCount_self] at hlt
      omega
    · rw [hnw2]
      have hlen : (wordsOf t1).length ≠ 0 := by simpa [wordsOf] using hnw1
      omega
    · rw [hnw2]
      omega
  -- the scan over the intermediate store finds exactly the first inserted entry
  have hfound : findSimilarContext
      (store ++ [(⟨newId1, uid, t1, p1, now1, now1⟩ : KeyContext)]) uid t2
      = some ⟨newId1, uid, t1, p1, now1, now1⟩ := by
    unfold findSimilarContext
    rw [hact, findSimilarLoop_append _ _ hskip]
    rw [findSimilarLoop]
    by_cases hx : normLower (⟨newId1, uid, t1, p1, now1, now1⟩ : KeyContext).relevant_info
        = normLower t2
    · rw [if_pos hx]
    · rw [if_neg hx]
      have hnw2 : wordSet (removePunct (normLower t2)) = wordsOf t1 := by
        unfold wordsOf
        rw [hnorm]
      have hlen : (wordsOf t1).length ≠ 0 := by simpa [wordsOf] using hnw1
      rw [if_neg (by
        show ¬ (max (wordsOf t1).length (wordSet (removePunct (normLower t2))).length = 0)
        rw [hnw2, max_self]
        exact hlen)]
      rw [if_pos (by
        show 9 * max (wordsOf t1).length (wordSet (removePunct (normLower t2))).length
          ≤ 10 * interCount (wordsOf t1) (wordSet (removePunct (normLower t2)))
        rw [hnw2, max_self, interCount_self]
        omega)]
  rw [hE1]
  unfold save_user_key_context
  rw [hfound]
  have hmapstore : ∀ (f : KeyContext → KeyContext), (∀ e ∈ store, f e = e) →
      store.map f = store := by
    intro f hf
    calc store.map f = store.map id := List.map_congr_left hf
    _ = store := List.map_id store
  dsimp only
  by_cases hcmp : p1 < p2
  · rw [if_pos hcmp, List.map_append]
    have h1 : store.map (fun e =>
        if e.id = newId1 then { e with context_priority := p2, updated_at := now2 } else e)
        = store := by
      apply hmapstore
      intro e he
      rw [if_neg (hfresh e he)]
    rw [h1]
    have hmax : max p1 p2 = p2 := max_eq_right (le_of_lt hcmp)
    simp [hmax]
  · rw [if_neg hcmp, List.map_append]
    have h1 : store.map (fun e => if e.id = newId1 then { e with updated_at := now2 } else e)
        = store := by
      apply hmapstore
      intro e he
      rw [if_neg (hfresh e he)]
    rw [h1]
    have hmax : max p1 p2 = p1 := max_eq_left (le_of_not_lt hcmp)
    simp [hmax]

/-- C6, witness for the amended theorem at a concrete input. -/
theorem C6_witness :
    save_user_key_context (save_user_key_context [] "u" ("Likes tea.".toList) 3 10 1) "u"
        ("likes tea".toList) 5 20 2
      = [] ++ [⟨1, "u", "Likes tea.".toList, max 3 5, 10, 20⟩] :=
  C6_amended [] "u" ("Likes tea.".toList) ("likes tea".toList) 3 5 10 1 20 2
    (by decide) (by decide) (by decide) (by decide) (by decide)

/-! ### C8: empty model output and the fallback reply -/

/-- C8, confirmed: a whitespace-only raw model output makes the gateway
return the fixed fallback reply — generic apology text,
`continue_listening = false` — instead of raising, and reconciling either
fallback reply (empty-output or JSON-error) performs no memory mutation: no
priority update is applied and no fact is inserted, the store is returned
unchanged. -/
theorem C8_empty_reply_fallback (responseText : Str) (store : List KeyContext)
    (uid : String) (now newId : Nat) (h : pyStrip responseText = []) :
    emptyResponseFallback responseText = some fallbackReply ∧
      continueListening fallbackReply = false ∧
      fallbackReply.server_reply = apologyText ∧
      reconcile store uid fallbackReply now newId = store ∧
      reconcile store uid jsonErrorFallbackReply now newId = store := by
  refine ⟨?_, rfl, rfl, ?_, ?_⟩
  · unfold emptyResponseFallback
    rw [if_pos h]
  · rfl
  · rfl

/-- C8, witness at a concrete input. -/
theorem C8_witness :
    emptyResponseFallback ("   ".toList) = some fallbackReply ∧
      continueListening fallbackReply = false ∧
      fallbackReply.server_reply = apologyText ∧
      reconcile [anaExisting] "u" fallbackReply 3 7 = [anaExisting] ∧
      reconcile [anaExisting] "u" jsonErrorFallbackReply 3 7 = [anaExisting] :=
  C8_empty_reply_fallback ("   ".toList) [anaExisting] "u" 3 7 (by decide)

/-! ### C9: out-of-range priority updates -/

/-- C9, counterexample: with one active entry and one zero-priority entry,
the snapshot sent to the model has a single position, yet the update
`entry_index = 2` — outside the snapshot's range — is not skipped: the
id mapping is built from `get_user_key_contexts`, which does not filter
zero-priority entries, so the stored zero-priority entry's priority is
changed to 9. -/
theorem C9_counterexample :
    (snapshotEntries [zp1, zp2] "u").length = 1 ∧
      applyContextUpdate [zp1, zp2] "u" 2 9 5
        = [zp1, ⟨2, "u", "old fact".toList, 9, 0, 5⟩] ∧
      (⟨2, "u", "old fact".toList, 9, 0, 5⟩ : KeyContext) ≠ zp2 := by
  decide

/-- C9, amended: an update whose `entry_index` falls outside the 1-based
range of the id mapping — the first `min(30, stored entries)` positions of
the user's sorted pool, not the truncated snapshot — is skipped: no
exception, store returned unchanged.  (Indices inside the mapping but beyond
the snapshot still mutate the corresponding stored entry, per the
counterexample.) -/
theorem C9_amended (store : List KeyContext) (uid : String) (k : Nat) (p : Int) (now : Nat)
    (h : k < 1 ∨ (get_user_key_contexts store uid 30).length < k) :
    applyContextUpdate store uid k p now = store := by
  unfold applyContextUpdate
  rw [if_neg (by omega)]

/-- C9, witness: `entry_index = 99` against three active entries. -/
theorem C9_witness :
    applyContextUpdate [zp1, zp2] "u" 99 5 7 = [zp1, zp2] :=
  C9_amended [zp1, zp2] "u" 99 5 7 (by decide)

/-! ### C10: frame property of update_key_context_priority -/

/-- C10, confirmed: under unique document ids, `update_key_context_priority`
(a) leaves the store untouched whenever it reports failure, (b) on success
rewrites exactly the entries with the targeted id, changing only their
`context_priority` and `updated_at` fields, and (c) succeeds precisely when
the store holds an entry with that id owned by the calling user — so a
missing id or a foreign owner yields `False` and no modification. -/
theorem C10_update_priority_frame (store : List KeyContext) (uid : String) (cid : Nat)
    (p : Int) (now : Nat) (hnodup : (store.map (fun e => e.id)).Nodup) :
    ((update_key_context_priority store uid cid p now).1 = false →
        (update_key_context_priority store uid cid p now).2 = store) ∧
      ((update_key_context_priority store uid cid p now).1 = true →
        (update_key_context_priority store uid cid p now).2
          = store.map (fun e =>
              if e.id = cid then { e with context_priority := p, updated_at := now } else e)) ∧
      ((update_key_context_priority store uid cid p now).1 = true ↔
        ∃ e ∈ store, e.id = cid ∧ e.user_id = uid) := by
  unfold update_key_context_priority
  rcases hfind : store.find? (fun e => decide (e.id = cid)) with _ | e0 <;>
    rw [hfind] <;> dsimp only
  · refine ⟨fun _ => rfl, fun h => by simp at h, ?_⟩
    constructor
    · intro h
      simp at h
    · rintro ⟨e, he, hid, -⟩
      have hnone := List.find?_eq_none.mp hfind e he
      simp [hid] at hnone
  · have hid0 : e0.id = cid := by
      have hp := List.find?_some hfind
      simpa using hp
    have hmem0 : e0 ∈ store := List.mem_of_find?_eq_some hfind
    by_cases hu : e0.user_id = uid
    · rw [if_pos hu]
      dsimp only
      refine ⟨fun h => by simp at h, fun _ => rfl, ?_⟩
      constructor
      · intro _
        exact ⟨e0, hmem0, hid0, hu⟩
      · intro _
        rfl
    · rw [if_neg hu]
      dsimp only
      refine ⟨fun _ => rfl, fun h => by simp at h, ?_⟩
      constructor
      · intro h
        simp at h
      · rintro ⟨e, he, hid, huser⟩
        have heq : e = e0 :=
          List.inj_on_of_nodup_map hnodup he hmem0 (by rw [hid, hid0])
        exact absurd (heq ▸ huser) hu

/-- C10, witness: a successful update on a two-user store, applied through
the frame theorem. -/
theorem C10_witness :
    (update_key_context_priority twoUserStore "alice" 1 50 9).2
      = twoUserStore.map (fun e =>
          if e.id = 1 then { e with context_priority := 50, updated_at := 9 } else e) :=
  (C10_update_priority_frame twoUserStore "alice" 1 50 9 (by decide)).2.1 (by decide)

/-! ### C3: remapping snapshot positions to store identities -/

/-- A permutation pair of `keyLe`-sorted lists is unique once `keyLe` is
antisymmetric on the members involved. -/
lemma eq_of_perm_of_sorted_keys :
    ∀ {l₁ l₂ : List KeyContext}, l₁.Perm l₂ → List.Sorted keyLe l₁ → List.Sorted keyLe l₂ →
      (∀ a ∈ l₁, ∀ b ∈ l₁, keyLe a b → keyLe b a → a = b) → l₁ = l₂
  | [], _, p, _, _, _ => (p.symm.eq_nil).symm
  | a :: t, [], p, _, _, _ => absurd p.eq_nil (by simp)
  | a :: t, b :: t₂, p, s₁, s₂, anti => by
    rcases List.sorted_cons.mp s₁ with ⟨ha, st⟩
    rcases List.sorted_cons.mp s₂ with ⟨hb, st₂⟩
    have hab : a = b := by
      rcases List.mem_cons.mp (p.subset (List.mem_cons_self a t)) with h | h
      · exact h
      · rcases List.mem_cons.mp (p.symm.subset (List.mem_cons_self b t₂)) with h' | h'
        · exact h'.symm
        · exact anti a (List.mem_cons_self a t) b (List.mem_cons.mpr (Or.inr h'))
            (ha b h') (hb a h)
    subst hab
    have ht : t = t₂ := eq_of_perm_of_sorted_keys p.cons_inv st st₂
      (fun x hx y hy => anti x (List.mem_cons.mpr (Or.inr hx)) y (List.mem_cons.mpr (Or.inr hy)))
    rw [ht]

/-- The sort relation only lets priorities descend. -/
lemma keyLe_priority {a b : KeyContext} (h : keyLe a b) :
    b.context_priority ≤ a.context_priority := by
  rcases h with h | ⟨h, -⟩
  · exact le_of_lt h
  · exact le_of_eq h.symm

/-- In a priority-descending list, filtering for active entries is taking the
leading active block. -/
lemma sorted_filter_eq_takeWhile :
    ∀ {l : List KeyContext}, List.Sorted keyLe l →
      l.filter (fun e => decide (1 ≤ e.context_priority))
        = l.takeWhile (fun e => decide (1 ≤ e.context_priority))
  | [], _ => rfl
  | a :: l, s => by
    rcases List.sorted_cons.mp s with ⟨ha, sl⟩
    rw [List.filter_cons, List.takeWhile_cons]
    by_cases hp : decide ((1 : Int) ≤ a.context_priority) = true
    · rw [if_pos hp, if_pos hp, sorted_filter_eq_takeWhile sl]
    · rw [if_neg hp, if_neg hp]
      apply List.filter_eq_nil_iff.mpr
      intro b hb
      have hle := keyLe_priority (ha b hb)
      have hpa : ¬ (1 : Int) ≤ a.context_priority := by simpa using hp
      simp only [decide_eq_true_eq]
      omega

/-- Splitting the optimized query's filter into the user filter and the
priority filter. -/
lemma optQuery_filter_split (store : List KeyContext) (uid : String) :
    store.filter (fun e => decide (e.user_id = uid) && decide ((1 : Int) ≤ e.context_priority))
      = (userContexts store uid).filter (fun e => decide (1 ≤ e.context_priority)) := by
  unfold userContexts
  rw [List.filter_filter]
  exact (List.filter_congr (fun a _ => by rw [Bool.and_comm])).symm

/-- When the user's entries have pairwise-distinct sort keys (so that both
database queries observe the same deterministic order), sorting the
active-only query result equals filtering the sorted full pool. -/
lemma optQuery_eq_filter (store : List KeyContext) (uid : String)
    (hdist : (userContexts store uid).Pairwise
      (fun a b => (a.context_priority, a.updated_at) ≠ (b.context_priority, b.updated_at))) :
    optQuery store uid 1
      = (sortKC (userContexts store uid)).filter (fun e => decide (1 ≤ e.context_priority)) := by
  have hmem : ∀ x, x ∈ optQuery store uid 1 → x ∈ userContexts store uid := by
    intro x hx
    have hx' := (List.perm_insertionSort keyLe _).subset hx
    rw [optQuery_filter_split] at hx'
    exact List.mem_of_mem_filter hx'
  have p1 : (optQuery store uid 1).Perm
      ((userContexts store uid).filter (fun e => decide (1 ≤ e.context_priority))) := by
    have hp : (optQuery store uid 1).Perm
        (store.filter (fun e => decide (e.user_id = uid) && decide ((1 : Int) ≤ e.context_priority))) :=
      List.perm_insertionSort keyLe _
    rwa [optQuery_filter_split store uid] at hp
  have p2 : ((sortKC (userContexts store uid)).filter
        (fun e => decide (1 ≤ e.context_priority))).Perm
      ((userContexts store uid).filter (fun e => decide (1 ≤ e.context_priority))) :=
    (List.perm_insertionSort keyLe _).filter _
  apply eq_of_perm_of_sorted_keys
  · exact p1.trans p2.symm
  · exact List.sorted_insertionSort keyLe _
  · exact (List.sorted_insertionSort keyLe _).sublist (List.filter_sublist _)
  · intro a haq b hbq hab hba
    by_contra hne
    have hsym : Symmetric (fun (a b : KeyContext) =>
        (a.context_priority, a.updated_at) ≠ (b.context_priority, b.updated_at)) := by
      intro x y h
      exact h.symm
    have hkne := hdist.forall hsym (hmem a haq) (hmem b hbq) hne
    have hpq : a.context_priority = b.context_priority :=
      le_antisymm (keyLe_priority hba) (keyLe_priority hab)
    have hu1 : b.updated_at ≤ a.updated_at := by
      rcases hab with h | ⟨-, h⟩
      · omega
      · exact h
    have hu2 : a.updated_at ≤ b.updated_at := by
      rcases hba with h | ⟨-, h⟩
      · omega
      · exact h
    exact hkne (by rw [hpq, Nat.le_antisymm hu1 hu2])

/-- Under distinct sort keys, the snapshot sent to the model is a prefix of
the sorted full pool of the user. -/
lemma snapshot_isPrefix (store : List KeyContext) (uid : String)
    (hdist : (userContexts store uid).Pairwise
      (fun a b => (a.context_priority, a.updated_at) ≠ (b.context_priority, b.updated_at))) :
    snapshotEntries store uid <+: sortKC (userContexts store uid) := by
  unfold snapshotEntries
  have h1 : optQuery store uid 1
      = (sortKC (userContexts store uid)).takeWhile (fun e => decide (1 ≤ e.context_priority)) :=
    (optQuery_eq_filter store uid hdist).trans
      (sorted_filter_eq_takeWhile (List.sorted_insertionSort keyLe _))
  rw [h1]
  have htw := List.takeWhile_prefix
    (l := sortKC (userContexts store uid)) (fun e => decide (1 ≤ e.context_priority))
  refine List.IsPrefix.trans ?_ htw
  exact List.take_prefix _ _

/-- C3, counterexample: with 31 tiny active entries (distinct recency keys),
all 31 fit the 1500-character snapshot budget, yet a priority update for
snapshot position 31 is dropped — the id mapping enumerates only the first 30
entries of `get_user_key_contexts` — so the store is returned unchanged and
the entry at snapshot position 31 keeps priority 5 instead of receiving 9. -/
theorem C3_counterexample :
    (snapshotEntries store31 "u").length = 31 ∧
      applyContextUpdate store31 "u" 31 9 1 = store31 ∧
      ((snapshotEntries store31 "u").getD 30 defaultKC).context_priority = 5 := by
  decide

/-- C3, amended: provided the user's entries carry pairwise-distinct
(priority, recency) sort keys and document ids are unique, a priority update
for snapshot position `k` with `k ≤ 30` (and `k` within the snapshot) updates
exactly the entry that occupied position `k` of the snapshot sent to the
model: that entry's priority and timestamp change and every other entry is
untouched.  Positions beyond 30 are dropped even when the snapshot contains
them. -/
theorem C3_amended (store : List KeyContext) (uid : String) (k : Nat) (p : Int) (now : Nat)
    (hdist : (userContexts store uid).Pairwise
      (fun a b => (a.context_priority, a.updated_at) ≠ (b.context_priority, b.updated_at)))
    (hnodup : (store.map (fun e => e.id)).Nodup)
    (hk1 : 1 ≤ k) (hks : k ≤ (snapshotEntries store uid).length) (hk30 : k ≤ 30) :
    applyContextUpdate store uid k p now
      = store.map (fun e =>
          if e.id = ((snapshotEntries store uid).getD (k - 1) defaultKC).id then
            { e with context_priority := p, updated_at := now }
          else e) := by
  have hpre := snapshot_isPrefix store uid hdist
  have hsl : (snapshotEntries store uid).length ≤ (sortKC (userContexts store uid)).length :=
    hpre.length_le
  have hik : k - 1 < (snapshotEntries store uid).length := by omega
  have hiA : k - 1 < (sortKC (userContexts store uid)).length := hik.trans_le hsl
  have hmaplen : (get_user_key_contexts store uid 30).length
      = min 30 (sortKC (userContexts store uid)).length := by
    unfold get_user_key_contexts
    rw [List.length_take]
  -- the mapping and the snapshot agree at position k-1
  have hgetSnap : (snapshotEntries store uid).getD (k - 1) defaultKC
      = (sortKC (userContexts store uid)).getD (k - 1) defaultKC := by
    rw [List.getD_eq_getElem _ _ hik, List.getD_eq_getElem _ _ hiA]
    exact List.IsPrefix.getElem hpre hik
  have hgetMap : (get_user_key_contexts store uid 30).getD (k - 1) defaultKC
      = (sortKC (userContexts store uid)).getD (k - 1) defaultKC := by
    unfold get_user_key_contexts
    rw [List.getD_eq_getElem _ _ (by rw [List.length_take]; omega),
      List.getD_eq_getElem _ _ hiA]
    exact (List.getElem_take' _ hiA (by omega)).symm
  -- the targeted entry belongs to the user and to the store
  have htgtmem : (snapshotEntries store uid).getD (k - 1) defaultKC ∈ userContexts store uid := by
    rw [hgetSnap, List.getD_eq_getElem _ _ hiA]
    exact (List.perm_insertionSort keyLe _).subset (List.getElem_mem hiA)
  have htgtstore : (snapshotEntries store uid).getD (k - 1) defaultKC ∈ store :=
    List.mem_of_mem_filter htgtmem
  have htgtuser : ((snapshotEntries store uid).getD (k - 1) defaultKC).user_id = uid := by
    have hf := List.mem_filter.mp htgtmem
    simpa using hf.2
  unfold applyContextUpdate
  rw [if_pos ⟨hk1, by omega⟩, hgetMap, ← hgetSnap]
  unfold update_key_context_priority
  rcases hfind : store.find? (fun e =>
      decide (e.id = ((snapshotEntries store uid).getD (k - 1) defaultKC).id)) with _ | e0
  · exact absurd (List.find?_eq_none.mp hfind _ htgtstore) (by simp)
  · have hid0 : e0.id = ((snapshotEntries store uid).getD (k - 1) defaultKC).id := by
      have hp0 := List.find?_some hfind
      simpa using hp0
    have hmem0 : e0 ∈ store := List.mem_of_find?_eq_some hfind
    have he0 : e0 = (snapshotEntries store uid).getD (k - 1) defaultKC :=
      List.inj_on_of_nodup_map hnodup hmem0 htgtstore hid0
    rw [hfind]
    dsimp only
    rw [he0, if_pos htgtuser]

/-- C3, witness for the amended theorem: position 1 of the 31-entry store. -/
theorem C3_witness :
    applyContextUpdate store31 "u" 1 9 4
      = store31.map (fun e =>
          if e.id = ((snapshotEntries store31 "u").getD 0 defaultKC).id then
            { e with context_priority := 9, updated_at := 4 }
          else e) :=
  C3_amended store31 "u" 1 9 4 (by decide) (by decide) (by decide) (by decide) (by decide)

end Tif
